import Mathlib

/-!
Verification of the redis-ratelimiter core (src/redis_limiter.go).

Shallow embedding: times are `Nat` values produced by an abstract clock
(`time.Now()` is the next value of the clock stream); `time.Duration` is an
`Int` (nanoseconds, may be zero or negative); the quota store
(`redis_rate.Limiter.Allow`) is an oracle giving, for each store query, the
pair `(res, err)` the Go call returns, with `res : Option Result` (a `*Result`
that may be nil) and `err : Option E` over an abstract error type `E`; the
select race between the backoff timer and the cancellation context is an
oracle `cancelled` saying, per iteration, whether `ctx.Done()` fires first.
-/

namespace RedisRatelimiter

/-- Embeds `redis_rate.Limit`: the fields set by `New` (`Rate`, `Burst`, `Period`). -/
structure Limit where
  rate : Int
  burst : Int
  period : Int
deriving DecidableEq

/-- Embeds `redis_rate.Result`: the fields `redisLimiter.Take` reads
(`res.Allowed`, `res.RetryAfter`). `Allowed` is an `int`, `RetryAfter` a
`time.Duration` (nanoseconds, possibly `<= 0`). -/
structure Result where
  allowed : Int
  retryAfter : Int
deriving DecidableEq

/-- A `context.Context` value, abstracted: the distinguished
`context.Background()` (which never cancels) or some caller-supplied context
identified by a tag. -/
inductive Ctx where
  | background
  | custom (id : Nat)
deriving DecidableEq

/-- The `config` struct filled by functional options. -/
structure Config where
  per : Int
  ctx : Ctx
deriving DecidableEq

/-- The two exposed functional options, `Per(d)` and `WithContext(ctx)`,
defunctionalized (in the source an option is `func(*config)` and these are
the only constructors the package exports). -/
inductive LimiterOpt where
  | per (d : Int)
  | withContext (ctx : Ctx)
deriving DecidableEq

/-- Running one option against the config: `Per` sets `cfg.per`,
`WithContext` sets `cfg.ctx`. -/
def applyOpt (c : Config) : LimiterOpt → Config
  | .per d => { c with per := d }
  | .withContext ctx => { c with ctx := ctx }

/-- The fields of `redisLimiter` that `New` fills (the store handle itself is
external and not part of the embedded state). -/
structure redisLimiter where
  key : String
  limit : Limit
  ctx : Ctx
deriving DecidableEq

/-- Value of `time.Second` in nanoseconds. -/
def second : Int := 1000000000

/-- Embeds `New(rdb, key, rate, opts...)`: defaults `per = time.Second`,
`ctx = context.Background()`, applies the options in order, then builds the
limiter with `Limit{Rate: rate, Burst: rate, Period: cfg.per}`. -/
def New (key : String) (rate : Int) (opts : List LimiterOpt) : redisLimiter :=
  let cfg := opts.foldl applyOpt { per := second, ctx := Ctx.background }
  { key := key
    limit := { rate := rate, burst := rate, period := cfg.per }
    ctx := cfg.ctx }

/-- The error a `Take` call can carry: an error surfaced verbatim from the
store, or the package sentinel `ErrIntervalServer`. -/
inductive LimiterError (E : Type) where
  | store (e : E)
  | intervalServer
deriving DecidableEq

/-- Outcome of one `redisLimiter.Take` call: a normal return `(t, err)`, or
a runtime nil-pointer dereference (Go panic) while evaluating `res.Allowed`
on a nil `res`. -/
inductive TakeOutcome (E : Type) where
  | ret (t : Nat) (e : Option (LimiterError E))
  | nilDeref
deriving DecidableEq

/-- The `for { ... }` loop of `redisLimiter.Take`, fuel-bounded (`none` means
the loop is still running after `fuel` iterations).

`store i` is what the `i`-th call to `l.limiter.Allow` returns; `cancelled i`
says whether, in iteration `i`, the `select` sees `l.ctx.Done()` before
`time.After(res.RetryAfter)`; `clock c` is the value of the `c`-th call to
`time.Now()` (each iteration consumes one clock value for `now` and the
fresh `time.Now()` in a return statement consumes the next one).

Faithful to the source order: the condition `err == nil && res.Allowed > 0`
is evaluated first and short-circuits, so when `err == nil` and `res == nil`
the read of `res.Allowed` dereferences nil (`.nilDeref`); consequently the
later `if res == nil { return time.Now(), ErrIntervalServer }` branch is
unreachable and does not appear on any reachable path below. -/
def redisLimiter.takeLoop {E : Type} (store : Nat → Option Result × Option E)
    (cancelled : Nat → Bool) (clock : Nat → Nat) :
    Nat → Nat → Nat → Option (TakeOutcome E)
  | 0, _, _ => none
  | fuel + 1, i, c =>
    let now := clock c
    match (store i).2, (store i).1 with
    | none, none =>
      -- `err == nil && res.Allowed > 0` dereferences the nil `res`
      some TakeOutcome.nilDeref
    | none, some r =>
      if 0 < r.allowed then
        -- `return now, nil`
        some (TakeOutcome.ret now none)
      else if 0 < r.retryAfter then
        -- rate limit exceeded: wait for RetryAfter racing `l.ctx.Done()`
        if cancelled i then
          -- `return time.Now(), nil`
          some (TakeOutcome.ret (clock (c + 1)) none)
        else
          -- the wait elapsed: `continue`
          redisLimiter.takeLoop store cancelled clock fuel (i + 1) (c + 1)
      else
        -- degenerate denied response: `return now, nil` (fail open)
        some (TakeOutcome.ret now none)
    | some e, _ =>
      -- `if err != nil { return time.Now(), err }`
      some (TakeOutcome.ret (clock (c + 1)) (some (LimiterError.store e)))

/-- Embeds `redisLimiter.Take()`: run the loop from the first store query and the
first clock value. -/
def redisLimiter.Take {E : Type} (store : Nat → Option Result × Option E)
    (cancelled : Nat → Bool) (clock : Nat → Nat) (fuel : Nat) :
    Option (TakeOutcome E) :=
  redisLimiter.takeLoop store cancelled clock fuel 0 0

/-- One constituent of a composite, for one `compositeLimiter.Take`
invocation: the pair `(t, err)` its own `Take()` returns when invoked. -/
abbrev Constituent (E : Type) := Nat × Option (LimiterError E)

/-- Embeds `compositeLimiter.AddLimiter(limiter)`: appends the argument to the
constituent slice, unconditionally (no validation, no nil check — `L` may be
instantiated with an option type to cover a nil interface argument). -/
def compositeLimiter.AddLimiter {L : Type} (limiters : List L) (l : L) :
    List L :=
  limiters ++ [l]

/-- The `for _, limiter := range limiters` loop of `compositeLimiter.Take`.
`errNow` is the fresh `time.Now()` of the error return; `lastTime` is the
variable assigned by each constituent call. Besides the Go return value, the
second component counts how many constituents had their `Take` invoked (an
observation of the operational behaviour, used to state the abort and
sequential-evaluation claims). -/
def compositeLimiter.takeLoop {E : Type} (errNow : Nat) :
    List (Constituent E) → Nat → (Nat × Option (LimiterError E)) × Nat
  | [], lastTime => ((lastTime, none), 0)
  | l :: rest, _ =>
    match l.2 with
    | some e =>
      -- `if err != nil { return time.Now(), err }`
      ((errNow, some e), 1)
    | none =>
      let r := compositeLimiter.takeLoop errNow rest l.1
      (r.1, r.2 + 1)

/-- Embeds `compositeLimiter.Take()` on the snapshot `limiters`: if the snapshot is
empty, `return time.Now(), nil`; otherwise run the loop with `lastTime`
starting at the `time.Time` zero value (embedded as `0`). `now` stands for
the `time.Now()` of whichever early return fires (at most one per call). -/
def compositeLimiter.take {E : Type} (now : Nat)
    (limiters : List (Constituent E)) :
    (Nat × Option (LimiterError E)) × Nat :=
  if limiters.isEmpty then ((now, none), 0)
  else compositeLimiter.takeLoop now limiters 0

/-- Claim C2: whenever the store's consume-attempt returns no error and an
allowed result (`res.Allowed > 0`), `Take` returns immediately with
`(now, nil)`, where `now` is the clock value recorded at the start of that
loop iteration, before the store was queried. Stated for an arbitrary
iteration `i` (so it covers the first query and every re-query). -/
theorem c2_take_allowed_returns_now {E : Type}
    (store : Nat → Option Result × Option E) (cancelled : Nat → Bool)
    (clock : Nat → Nat) (fuel i c : Nat) (r : Result)
    (hres : (store i).1 = some r) (herr : (store i).2 = none)
    (hall : 0 < r.allowed) :
    redisLimiter.takeLoop store cancelled clock (fuel + 1) i c =
      some (TakeOutcome.ret (clock c) none) := by
  simp [redisLimiter.takeLoop, hres, herr, hall]

/-- Witness for C2 at a concrete store response. -/
theorem c2_take_allowed_returns_now_witness :
    ((fun _ : Nat => ((some ⟨1, 0⟩ : Option Result), (none : Option Unit))) 0).1
        = some ⟨1, 0⟩ ∧
    ((fun _ : Nat => ((some ⟨1, 0⟩ : Option Result), (none : Option Unit))) 0).2
        = none ∧
    (0 : Int) < (1 : Int) ∧
    redisLimiter.takeLoop (fun _ => (some ⟨1, 0⟩, (none : Option Unit)))
        (fun _ => false) (fun c => 10 + c) 1 0 0 =
      some (TakeOutcome.ret 10 none) :=
  ⟨rfl, rfl, by decide,
    c2_take_allowed_returns_now _ _ _ 0 0 0 ⟨1, 0⟩ rfl rfl (by decide)⟩

/-- Claim C3: if the store's consume-attempt returns an error, `Take` returns
that error immediately (verbatim, no internal retry, no fail-open at this
layer) together with a fresh current time. -/
theorem c3_take_store_error_propagates {E : Type}
    (store : Nat → Option Result × Option E) (cancelled : Nat → Bool)
    (clock : Nat → Nat) (fuel i c : Nat) (e : E)
    (herr : (store i).2 = some e) :
    redisLimiter.takeLoop store cancelled clock (fuel + 1) i c =
      some (TakeOutcome.ret (clock (c + 1)) (some (LimiterError.store e))) := by
  simp [redisLimiter.takeLoop, herr]

/-- Witness for C3 at a concrete store error. -/
theorem c3_take_store_error_propagates_witness :
    ((fun _ : Nat => ((none : Option Result), some 42)) 0).2 = some 42 ∧
    redisLimiter.takeLoop (fun _ => ((none : Option Result), some 42))
        (fun _ => false) (fun c => 10 + c) 1 0 0 =
      some (TakeOutcome.ret 11 (some (LimiterError.store 42))) :=
  ⟨rfl, c3_take_store_error_propagates _ _ _ 0 0 0 42 rfl⟩

/-- Claim C4 (failing input): when the store returns a nil result together
with no error, the code does not reach the
`if res == nil { return time.Now(), ErrIntervalServer }` branch: the earlier
condition `err == nil && res.Allowed > 0` dereferences the nil `res` first,
so the call panics instead of returning the `ErrIntervalServer` sentinel. -/
theorem c4_nil_result_nil_error_dereferences_nil :
    redisLimiter.Take (E := Unit) (fun _ => (none, none)) (fun _ => false)
        (fun c => 10 + c) 1 =
      some TakeOutcome.nilDeref := by
  rfl

/-- Claim C5: on a denied response with positive `RetryAfter`, if the
cancellation context wins the race against the backoff timer, `Take` returns
`(currentTime, nil)`: cancellation resolves to a successful return, never to
an error. -/
theorem c5_cancellation_returns_success {E : Type}
    (store : Nat → Option Result × Option E) (cancelled : Nat → Bool)
    (clock : Nat → Nat) (fuel i c : Nat) (r : Result)
    (hres : (store i).1 = some r) (herr : (store i).2 = none)
    (hden : r.allowed ≤ 0) (hra : 0 < r.retryAfter)
    (hcan : cancelled i = true) :
    redisLimiter.takeLoop store cancelled clock (fuel + 1) i c =
      some (TakeOutcome.ret (clock (c + 1)) none) := by
  simp [redisLimiter.takeLoop, hres, herr, hra, hcan, not_lt.mpr hden]

/-- Witness for C5 at a concrete denied response with cancellation. -/
theorem c5_cancellation_returns_success_witness :
    ((fun _ : Nat => ((some ⟨0, 5⟩ : Option Result), (none : Option Unit))) 0).1
        = some ⟨0, 5⟩ ∧
    ((fun _ : Nat => ((some ⟨0, 5⟩ : Option Result), (none : Option Unit))) 0).2
        = none ∧
    (0 : Int) ≤ (0 : Int) ∧ (0 : Int) < (5 : Int) ∧
    (fun _ : Nat => true) 0 = true ∧
    redisLimiter.takeLoop (fun _ => (some ⟨0, 5⟩, (none : Option Unit)))
        (fun _ => true) (fun c => 10 + c) 1 0 0 =
      some (TakeOutcome.ret 11 none) :=
  ⟨rfl, rfl, by decide, by decide, rfl,
    c5_cancellation_returns_success _ _ _ 0 0 0 ⟨0, 5⟩ rfl rfl (by decide)
      (by decide) rfl⟩

/-- Claim C6: on a denied response (non-nil result, no error) whose
`RetryAfter` is less than or equal to zero, `Take` fails open, returning
`(now, nil)` immediately without retrying or waiting. -/
theorem c6_degenerate_denied_fails_open {E : Type}
    (store : Nat → Option Result × Option E) (cancelled : Nat → Bool)
    (clock : Nat → Nat) (fuel i c : Nat) (r : Result)
    (hres : (store i).1 = some r) (herr : (store i).2 = none)
    (hden : r.allowed ≤ 0) (hra : r.retryAfter ≤ 0) :
    redisLimiter.takeLoop store cancelled clock (fuel + 1) i c =
      some (TakeOutcome.ret (clock c) none) := by
  simp [redisLimiter.takeLoop, hres, herr, not_lt.mpr hden, not_lt.mpr hra]

/-- Witness for C6 at a concrete degenerate denied response. -/
theorem c6_degenerate_denied_fails_open_witness :
    ((fun _ : Nat => ((some ⟨0, 0⟩ : Option Result), (none : Option Unit))) 0).1
        = some ⟨0, 0⟩ ∧
    ((fun _ : Nat => ((some ⟨0, 0⟩ : Option Result), (none : Option Unit))) 0).2
        = none ∧
    (0 : Int) ≤ (0 : Int) ∧ (0 : Int) ≤ (0 : Int) ∧
    redisLimiter.takeLoop (fun _ => (some ⟨0, 0⟩, (none : Option Unit)))
        (fun _ => false) (fun c => 10 + c) 1 0 0 =
      some (TakeOutcome.ret 10 none) :=
  ⟨rfl, rfl, by decide, by decide,
    c6_degenerate_denied_fails_open _ _ _ 0 0 0 ⟨0, 0⟩ rfl rfl (by decide)
      (by decide)⟩

/-- Helper: when every constituent succeeds, the loop returns the last
constituent's time (or the incoming `lastTime` for an empty suffix) and
invokes every constituent. -/
theorem takeLoop_all_ok {E : Type} (errNow : Nat) (ls : List (Constituent E))
    (h : ∀ p ∈ ls, p.2 = none) (init : Nat) :
    compositeLimiter.takeLoop errNow ls init =
      (((ls.map Prod.fst).getLastD init, none), ls.length) := by
  induction ls generalizing init with
  | nil => rfl
  | cons l rest ih =>
    have hl : l.2 = none := h l (List.mem_cons_self l rest)
    have hrest : ∀ p ∈ rest, p.2 = none :=
      fun p hp => h p (List.mem_cons_of_mem _ hp)
    simp only [compositeLimiter.takeLoop, hl, ih hrest l.1, List.map_cons,
      List.getLastD_cons, List.length_cons]

/-- Helper: the loop stops at the first erring constituent, having invoked
exactly the constituents up to and including it, whatever follows. -/
theorem takeLoop_first_error {E : Type} (errNow t : Nat) (e : LimiterError E)
    (rest : List (Constituent E)) :
    ∀ pre : List (Constituent E), (∀ p ∈ pre, p.2 = none) → ∀ init : Nat,
      compositeLimiter.takeLoop errNow (pre ++ (t, some e) :: rest) init =
        ((errNow, some e), pre.length + 1)
  | [], _, _ => by
    simp [compositeLimiter.takeLoop]
  | l :: pre, h, init => by
    have hl : l.2 = none := h l (List.mem_cons_self l pre)
    have hpre : ∀ p ∈ pre, p.2 = none :=
      fun p hp => h p (List.mem_cons_of_mem _ hp)
    simp [compositeLimiter.takeLoop, hl,
      takeLoop_first_error errNow t e rest pre hpre l.1]

/-- Claim C1: on a non-empty snapshot, the composite invokes every
constituent (the invocation count equals the snapshot length, in list
order), and when every constituent succeeds it returns `(lastGrantTime,
nil)` where `lastGrantTime` is the time of the last constituent. -/
theorem c1_composite_all_succeed_last_time {E : Type} (now : Nat)
    (ls : List (Constituent E)) (hne : ls ≠ [])
    (h : ∀ p ∈ ls, p.2 = none) :
    compositeLimiter.take now ls = (((ls.getLast hne).1, none), ls.length) := by
  unfold compositeLimiter.take
  rw [if_neg (by simpa [List.isEmpty_iff] using hne)]
  rw [takeLoop_all_ok now ls h 0]
  rw [List.getLastD_eq_getLast?, List.getLast?_map,
    List.getLast?_eq_getLast _ hne]
  rfl

/-- Witness for C1 on a concrete two-constituent snapshot. -/
theorem c1_composite_all_succeed_last_time_witness :
    ([((5 : Nat), (none : Option (LimiterError Unit))), (7, none)] ≠ []) ∧
    (∀ p ∈ [((5 : Nat), (none : Option (LimiterError Unit))), (7, none)],
      p.2 = none) ∧
    compositeLimiter.take 3
        [((5 : Nat), (none : Option (LimiterError Unit))), (7, none)] =
      ((7, none), 2) :=
  ⟨by decide, by decide,
    c1_composite_all_succeed_last_time 3
      [((5 : Nat), (none : Option (LimiterError Unit))), (7, none)]
      (by decide) (by decide)⟩

/-- Claim C7: a composite whose snapshot is empty fails open, returning
`(now, nil)` immediately, invoking no constituent (so it neither blocks nor
errs). -/
theorem c7_empty_composite_fails_open {E : Type} (now : Nat) :
    compositeLimiter.take (E := E) now [] = ((now, none), 0) :=
  rfl

/-- Claim C8: if a constituent errs and every constituent before it
succeeded, the composite aborts there — exactly the constituents up to and
including the failing one are invoked, whatever comes after — and returns
`(now, err)` with that first error, unaggregated. -/
theorem c8_composite_aborts_on_first_error {E : Type} (now t : Nat)
    (e : LimiterError E) (pre rest : List (Constituent E))
    (h : ∀ p ∈ pre, p.2 = none) :
    compositeLimiter.take now (pre ++ (t, some e) :: rest) =
      ((now, some e), pre.length + 1) := by
  unfold compositeLimiter.take
  rw [if_neg (by simp)]
  exact takeLoop_first_error now t e rest pre h 0

/-- Witness for C8 on a concrete snapshot whose second constituent errs. -/
theorem c8_composite_aborts_on_first_error_witness :
    (∀ p ∈ [((4 : Nat), (none : Option (LimiterError Unit)))], p.2 = none) ∧
    compositeLimiter.take 3
        ([((4 : Nat), (none : Option (LimiterError Unit)))] ++
          (9, some (LimiterError.store ())) :: [(11, none)]) =
      ((3, some (LimiterError.store ())), 2) :=
  ⟨by decide,
    c8_composite_aborts_on_first_error 3 9 (LimiterError.store ())
      [((4 : Nat), (none : Option (LimiterError Unit)))] [(11, none)]
      (by decide)⟩

/-- Helper: options other than `WithContext` never change `cfg.ctx`. -/
theorem foldl_applyOpt_ctx (opts : List LimiterOpt) (cfg : Config)
    (h : ∀ o ∈ opts, ∀ c, o ≠ LimiterOpt.withContext c) :
    (opts.foldl applyOpt cfg).ctx = cfg.ctx := by
  induction opts generalizing cfg with
  | nil => rfl
  | cons o rest ih =>
    have ho := h o (List.mem_cons_self o rest)
    cases o with
    | per d =>
      have := ih (applyOpt cfg (LimiterOpt.per d))
        (fun p hp c => h p (List.mem_cons_of_mem _ hp) c)
      simpa [applyOpt] using this
    | withContext c => exact absurd rfl (ho c)

/-- Claim C9: `New` always sets the quota's burst capacity equal to `rate`
(for every call, whatever the options), and when no `WithContext` option is
among the options, the limiter's cancellation context is the
never-cancelling background context. -/
theorem c9_new_burst_eq_rate_and_default_ctx (key : String) (rate : Int)
    (opts : List LimiterOpt) :
    (New key rate opts).limit.burst = rate ∧
      ((∀ o ∈ opts, ∀ c, o ≠ LimiterOpt.withContext c) →
        (New key rate opts).ctx = Ctx.background) :=
  ⟨rfl,
    fun h => foldl_applyOpt_ctx opts { per := second, ctx := Ctx.background } h⟩

/-- Witness for C9: the burst conjunct at a call passing `WithContext`, and
both conjuncts at a call passing only `Per`. -/
theorem c9_new_burst_eq_rate_and_default_ctx_witness :
    (New "k" 7 [LimiterOpt.withContext (Ctx.custom 1)]).limit.burst = 7 ∧
    (∀ o ∈ [LimiterOpt.per 60], ∀ c, o ≠ LimiterOpt.withContext c) ∧
    (New "k" 5 [LimiterOpt.per 60]).limit.burst = 5 ∧
      (New "k" 5 [LimiterOpt.per 60]).ctx = Ctx.background :=
  ⟨(c9_new_burst_eq_rate_and_default_ctx "k" 7
      [LimiterOpt.withContext (Ctx.custom 1)]).1,
    by intro o ho c hc; subst hc; simp at ho,
    (c9_new_burst_eq_rate_and_default_ctx "k" 5 [LimiterOpt.per 60]).1,
    (c9_new_burst_eq_rate_and_default_ctx "k" 5 [LimiterOpt.per 60]).2
      (by intro o ho c hc; subst hc; simp at ho)⟩

/-- Claim C10: `AddLimiter` appends exactly one element at the end of the
constituent sequence, with no validation of the argument (including no nil
check — `L` is arbitrary and the statement holds for every `l`, e.g. a
`none` of an option type standing for a nil interface value): the length
grows by one, every previously present constituent keeps its position and
value, the new limiter sits at the old length, and nothing lies beyond. -/
theorem c10_addLimiter_appends_one {L : Type} (s : List L) (l : L) (i : Nat) :
    (compositeLimiter.AddLimiter s l).length = s.length + 1 ∧
    (compositeLimiter.AddLimiter s l)[i]? =
      (if i < s.length then s[i]? else if i = s.length then some l else none) := by
  unfold compositeLimiter.AddLimiter
  refine ⟨by simp, ?_⟩
  rw [List.getElem?_append]
  rcases Nat.lt_trichotomy i s.length with hlt | heq | hgt
  · rw [if_pos hlt, if_pos hlt]
  · rw [if_neg (by omega), if_neg (by omega), if_pos heq, heq, Nat.sub_self]
    rfl
  · rw [if_neg (by omega), if_neg (by omega), if_neg (by omega)]
    exact List.getElem?_eq_none
      (by simp only [List.length_cons, List.length_nil]; omega)

end RedisRatelimiter
